import Mathlib

/-!
Verification of the ChibiOS shim header of the arduino-esplanade board
support package (`variants/code/ChibiOS.h`).

The header defines a 100 Hz tick frequency, six time-conversion macros
operating in unsigned 32-bit arithmetic, fixed-size thread descriptors and
the virtual-timer API surface.  Machine integers are modelled as `Nat`
with explicit reduction modulo 2^32 at every C arithmetic operation, as
on the 32-bit target (where `unsigned long` is 32 bits wide).
-/

/-- 2^32, the modulus of the unsigned 32-bit arithmetic domain. -/
def U32_MOD : Nat := 4294967296

/-- C unsigned 32-bit addition: wraps modulo 2^32. -/
def u32add (a b : Nat) : Nat := (a + b) % U32_MOD

/-- C unsigned 32-bit multiplication: wraps modulo 2^32. -/
def u32mul (a b : Nat) : Nat := (a * b) % U32_MOD

/-- C unsigned 32-bit subtraction: wraps modulo 2^32. -/
def u32sub (a b : Nat) : Nat := (a + (U32_MOD - b % U32_MOD)) % U32_MOD

/-- `#define CH_CFG_ST_FREQUENCY 100` — the SysTick timer frequency in Hz. -/
def CH_CFG_ST_FREQUENCY : Nat := 100

/-- `S2ST(sec)`: seconds to system ticks,
`(systime_t)((uint32_t)(sec) * (uint32_t)CH_CFG_ST_FREQUENCY)`. -/
def S2ST (sec : Nat) : Nat := u32mul sec CH_CFG_ST_FREQUENCY

/-- `MS2ST(msec)`: milliseconds to system ticks,
`(systime_t)((((uint32_t)(msec)) * ((uint32_t)CH_CFG_ST_FREQUENCY) + 999UL) / 1000UL)`. -/
def MS2ST (msec : Nat) : Nat :=
  u32add (u32mul msec CH_CFG_ST_FREQUENCY) 999 / 1000

/-- `US2ST(usec)`: microseconds to system ticks,
`(systime_t)((((uint32_t)(usec)) * ((uint32_t)CH_CFG_ST_FREQUENCY) + 999999UL) / 1000000UL)`. -/
def US2ST (usec : Nat) : Nat :=
  u32add (u32mul usec CH_CFG_ST_FREQUENCY) 999999 / 1000000

/-- `ST2S(n)`: system ticks to seconds,
`((n) + CH_CFG_ST_FREQUENCY - 1UL) / CH_CFG_ST_FREQUENCY`. -/
def ST2S (n : Nat) : Nat :=
  u32sub (u32add n CH_CFG_ST_FREQUENCY) 1 / CH_CFG_ST_FREQUENCY

/-- `ST2MS(n)`: system ticks to milliseconds,
`((n) * 1000UL + CH_CFG_ST_FREQUENCY - 1UL) / CH_CFG_ST_FREQUENCY`. -/
def ST2MS (n : Nat) : Nat :=
  u32sub (u32add (u32mul n 1000) CH_CFG_ST_FREQUENCY) 1 / CH_CFG_ST_FREQUENCY

/-- `ST2US(n)`: system ticks to microseconds,
`((n) * 1000000UL + CH_CFG_ST_FREQUENCY - 1UL) / CH_CFG_ST_FREQUENCY`. -/
def ST2US (n : Nat) : Nat :=
  u32sub (u32add (u32mul n 1000000) CH_CFG_ST_FREQUENCY) 1 / CH_CFG_ST_FREQUENCY

/-- Exact ceiling division on naturals, `ceil(a / b)`, the reference
function the spec describes the conversions with. -/
def ceilDiv (a b : Nat) : Nat := (a + b - 1) / b

/-- `uint32_t`: the unsigned 32-bit integer type, values `0 .. 2^32 - 1`
with arithmetic wrapping modulo 2^32. -/
abbrev uint32_t := Fin U32_MOD

/-- `typedef uint32_t systime_t;` -/
abbrev systime_t := uint32_t

/-- `typedef uint32_t tprio_t;` -/
abbrev tprio_t := uint32_t

/-- `typedef uint32_t msg_t;` -/
abbrev msg_t := uint32_t

/-- `sizeof(uint8_t)`: one byte. -/
def sizeof_uint8_t : Nat := 1

/-- `alignof(uint8_t)`: byte alignment. -/
def alignof_uint8_t : Nat := 1

/-- Round `n` up to the next multiple of the alignment `a`. -/
def alignUp (n a : Nat) : Nat := (n + a - 1) / a * a

/-- C struct layout: members given as (size, alignment) pairs are placed at
offsets aligned to each member's alignment, and the struct size is the end
offset rounded up to the struct's alignment (the max member alignment). -/
def structLayoutSize (members : List (Nat × Nat)) : Nat :=
  alignUp (members.foldl (fun off m => alignUp off m.2 + m.1) 0)
    (members.foldl (fun acc m => max acc m.2) 1)

/-- The member list of `thread_t`, which is
`typedef struct { uint8_t data[64]; } thread_t;` — a single member, an
array of 64 `uint8_t`. -/
def thread_t_members : List (Nat × Nat) :=
  [(64 * sizeof_uint8_t, alignof_uint8_t)]

/-- `sizeof(thread_t)` computed from the struct layout. -/
def sizeof_thread_t : Nat := structLayoutSize thread_t_members

/-- A virtual timer queue state: each node is `(vt_delta, callback id)`,
where the identifier stands for the `vt_func`/`vt_par` pair and the delta
is the tick count relative to the previous node (delta-queue encoding). -/
abbrev VTQueue := List (Nat × Nat)

/-- Modelled from the spec: the delta-queue insertion performed by
`setTimer` (the header only declares the `setTimer` prototype; its body is
not part of this repository's source).  Walks from the head, subtracting
each visited node's delta from the remaining delay; inserts before the
first node whose delta exceeds the remaining delay (reducing that node's
delta), so a new timer with a deadline equal to an existing one is placed
after it. -/
def setTimerInsert (delay id : Nat) : VTQueue → VTQueue
  | [] => [(delay, id)]
  | (d, i) :: rest =>
    if delay < d then (delay, id) :: (d - delay, i) :: rest
    else (d, i) :: setTimerInsert (delay - d) id rest

/-- Modelled from the spec: the firing pass of the tick handler — while the
head's delta has reached zero, detach it and record its callback.  Returns
the fired callback ids in order together with the remaining queue. -/
def fireExpired : VTQueue → List Nat × VTQueue
  | [] => ([], [])
  | (d, i) :: rest =>
    if d = 0 then
      (i :: (fireExpired rest).1, (fireExpired rest).2)
    else ([], (d, i) :: rest)

/-- Modelled from the spec: one tick advance — decrement the head's delta
by one tick, then fire every expired head. -/
def tickAdvance : VTQueue → List Nat × VTQueue
  | [] => ([], [])
  | (d, i) :: rest => fireExpired ((d - 1, i) :: rest)

/-- Run `n` tick advances, concatenating the fired callback ids in order. -/
def runTicks : Nat → VTQueue → List Nat
  | 0, _ => []
  | n + 1, q => (tickAdvance q).1 ++ runTicks n (tickAdvance q).2

/-- The callback ids of a queue, in queue order. -/
def ids (q : VTQueue) : List Nat := q.map Prod.snd

/-- The sum of the deltas of a queue (total ticks until the last timer). -/
def sumDeltas (q : VTQueue) : Nat := (q.map Prod.fst).sum

/-- Ceil division is a true ceiling: `b * ceilDiv a b >= a` for `b > 0`. -/
theorem ceilDiv_mul_ge (a b : Nat) (hb : 0 < b) : a ≤ ceilDiv a b * b := by
  unfold ceilDiv
  have h := Nat.div_add_mod (a + b - 1) b
  have hr := Nat.mod_lt (a + b - 1) hb
  rw [Nat.mul_comm]
  omega

/-- In the non-overflowing range the wrapped `MS2ST` computes the plain
ceiling `(msec * 100 + 999) / 1000`. -/
theorem MS2ST_eq_of_lt (msec : Nat) (h : msec * 100 + 999 < U32_MOD) :
    MS2ST msec = (msec * 100 + 999) / 1000 := by
  unfold U32_MOD at h
  unfold MS2ST u32add u32mul CH_CFG_ST_FREQUENCY U32_MOD
  omega

/-- C1 (as stated, counterexample): the ceiling property fails once
`ms * 100` wraps modulo 2^32.  At `ms = 42949673` the product wraps to 4,
`MS2ST` yields 1 tick, and converting back gives 10 ms, far below `ms`. -/
theorem MS2ST_ceiling_counterexample :
    42949673 < U32_MOD ∧
    ¬ 42949673 ≤ u32mul (MS2ST 42949673) 1000 / CH_CFG_ST_FREQUENCY := by
  decide

/-- C1 (amended): for every `ms` whose conversion does not overflow the
unsigned 32-bit domain (`ms * 100 + 999 < 2^32`), converting to ticks and
back to milliseconds never under-converts:
`MS2ST(ms) * 1000 / FREQUENCY >= ms`. -/
theorem MS2ST_ceiling_property (ms : Nat) (h : ms * 100 + 999 < U32_MOD) :
    ms ≤ u32mul (MS2ST ms) 1000 / CH_CFG_ST_FREQUENCY := by
  rw [MS2ST_eq_of_lt ms h]
  unfold U32_MOD at h
  unfold u32mul CH_CFG_ST_FREQUENCY U32_MOD
  have h1 : (ms * 100 + 999) / 1000 * 1000 ≤ ms * 100 + 999 :=
    Nat.div_mul_le_self _ _
  have h2 : (ms * 100 + 999) / 1000 * 1000 % 4294967296
      = (ms * 100 + 999) / 1000 * 1000 := Nat.mod_eq_of_lt (by omega)
  rw [h2]
  have h3 := Nat.div_add_mod (ms * 100 + 999) 1000
  have h4 : (ms * 100 + 999) % 1000 < 1000 := Nat.mod_lt _ (by omega)
  omega

/-- Witness for C1 (amended) at `ms = 15`. -/
theorem MS2ST_ceiling_property_witness :
    15 * 100 + 999 < U32_MOD ∧
    15 ≤ u32mul (MS2ST 15) 1000 / CH_CFG_ST_FREQUENCY :=
  ⟨by decide, MS2ST_ceiling_property 15 (by decide)⟩

/-- C2: in the non-overflowing unsigned 32-bit range the forward
conversions compute the exact ceiling: `S2ST(sec) = sec * 100`,
`MS2ST(ms) = ceil(ms * 100 / 1000)`, `US2ST(us) = ceil(us * 100 / 1000000)`,
and in particular `MS2ST(1) = 1`. -/
theorem forward_conversions_exact_ceiling :
    (∀ sec, sec * 100 < U32_MOD → S2ST sec = sec * 100) ∧
    (∀ ms, ms * 100 + 999 < U32_MOD → MS2ST ms = ceilDiv (ms * 100) 1000) ∧
    (∀ us, us * 100 + 999999 < U32_MOD → US2ST us = ceilDiv (us * 100) 1000000) ∧
    MS2ST 1 = 1 := by
  refine ⟨?_, ?_, ?_, by decide⟩
  · intro sec h
    unfold U32_MOD at h
    unfold S2ST u32mul CH_CFG_ST_FREQUENCY U32_MOD
    omega
  · intro ms h
    unfold U32_MOD at h
    unfold MS2ST ceilDiv u32add u32mul CH_CFG_ST_FREQUENCY U32_MOD
    omega
  · intro us h
    unfold U32_MOD at h
    unfold US2ST ceilDiv u32add u32mul CH_CFG_ST_FREQUENCY U32_MOD
    omega

/-- Witness for C2 at `sec = 3`, `ms = 7`, `us = 123`. -/
theorem forward_conversions_exact_ceiling_witness :
    S2ST 3 = 300 ∧ MS2ST 7 = ceilDiv 700 1000 ∧
    US2ST 123 = ceilDiv 12300 1000000 ∧ MS2ST 1 = 1 :=
  ⟨forward_conversions_exact_ceiling.1 3 (by decide),
   forward_conversions_exact_ceiling.2.1 7 (by decide),
   forward_conversions_exact_ceiling.2.2.1 123 (by decide),
   forward_conversions_exact_ceiling.2.2.2⟩

/-- C3: in the non-overflowing unsigned 32-bit range the reverse
conversions round up symmetrically: `ST2S(n) = ceil(n / 100)`,
`ST2MS(n) = ceil(n * 1000 / 100)`, `ST2US(n) = ceil(n * 1000000 / 100)`. -/
theorem reverse_conversions_round_up :
    (∀ n, n + 99 < U32_MOD → ST2S n = ceilDiv n 100) ∧
    (∀ n, n * 1000 + 99 < U32_MOD → ST2MS n = ceilDiv (n * 1000) 100) ∧
    (∀ n, n * 1000000 + 99 < U32_MOD → ST2US n = ceilDiv (n * 1000000) 100) := by
  refine ⟨?_, ?_, ?_⟩
  · intro n h
    unfold U32_MOD at h
    unfold ST2S ceilDiv u32sub u32add CH_CFG_ST_FREQUENCY U32_MOD
    omega
  · intro n h
    unfold U32_MOD at h
    unfold ST2MS ceilDiv u32sub u32add u32mul CH_CFG_ST_FREQUENCY U32_MOD
    omega
  · intro n h
    unfold U32_MOD at h
    unfold ST2US ceilDiv u32sub u32add u32mul CH_CFG_ST_FREQUENCY U32_MOD
    omega

/-- Witness for C3 at `n = 101`, `n = 5`, `n = 5`. -/
theorem reverse_conversions_round_up_witness :
    ST2S 101 = ceilDiv 101 100 ∧ ST2MS 5 = ceilDiv 5000 100 ∧
    ST2US 5 = ceilDiv 5000000 100 :=
  ⟨reverse_conversions_round_up.1 101 (by decide),
   reverse_conversions_round_up.2.1 5 (by decide),
   reverse_conversions_round_up.2.2 5 (by decide)⟩

/-- C4: at the 100 Hz tick frequency, `MS2ST(15)` is exactly 2 ticks. -/
theorem MS2ST_fifteen_is_two : MS2ST 15 = 2 := by decide

/-- C7: the compile-time tick frequency `CH_CFG_ST_FREQUENCY` equals 100,
and each of the six conversion macros uses it as its frequency factor. -/
theorem tick_frequency_is_100 :
    CH_CFG_ST_FREQUENCY = 100 ∧
    (∀ s, S2ST s = u32mul s CH_CFG_ST_FREQUENCY) ∧
    (∀ m, MS2ST m = u32add (u32mul m CH_CFG_ST_FREQUENCY) 999 / 1000) ∧
    (∀ u, US2ST u = u32add (u32mul u CH_CFG_ST_FREQUENCY) 999999 / 1000000) ∧
    (∀ n, ST2S n = u32sub (u32add n CH_CFG_ST_FREQUENCY) 1 / CH_CFG_ST_FREQUENCY) ∧
    (∀ n, ST2MS n =
      u32sub (u32add (u32mul n 1000) CH_CFG_ST_FREQUENCY) 1 / CH_CFG_ST_FREQUENCY) ∧
    (∀ n, ST2US n =
      u32sub (u32add (u32mul n 1000000) CH_CFG_ST_FREQUENCY) 1 / CH_CFG_ST_FREQUENCY) :=
  ⟨rfl, fun _ => rfl, fun _ => rfl, fun _ => rfl, fun _ => rfl,
   fun _ => rfl, fun _ => rfl⟩

/-- C9 (as stated, counterexample): at `sec = 42949672` we have
`sec * 100 = 4294967200 < 2^32`, yet `ST2S` adds 99 to the tick count,
wrapping past 2^32, so the round-trip returns 0, not `sec`. -/
theorem seconds_roundtrip_counterexample :
    42949672 * 100 < U32_MOD ∧ ST2S (S2ST 42949672) ≠ 42949672 := by
  decide

/-- C9 (amended): for every `sec` with `sec * 100 + 99 < 2^32` (so that the
reverse conversion's rounding addend also stays in range), the seconds
round-trip is the identity: `ST2S(S2ST(sec)) = sec`. -/
theorem seconds_roundtrip_exact (sec : Nat) (h : sec * 100 + 99 < U32_MOD) :
    ST2S (S2ST sec) = sec := by
  unfold U32_MOD at h
  unfold ST2S S2ST u32sub u32add u32mul CH_CFG_ST_FREQUENCY U32_MOD
  omega

/-- Witness for C9 (amended) at `sec = 42`. -/
theorem seconds_roundtrip_exact_witness :
    42 * 100 + 99 < U32_MOD ∧ ST2S (S2ST 42) = 42 :=
  ⟨by decide, seconds_roundtrip_exact 42 (by decide)⟩

/-- C10: for every tick count `n` with `n * 1000 < 2^32`, the
ticks-to-milliseconds conversion is exact: `ST2MS(n) = 10 * n` (1000 is
divisible by the 100 Hz frequency, so the ceiling never rounds). -/
theorem ST2MS_exact (n : Nat) (h : n * 1000 < U32_MOD) : ST2MS n = 10 * n := by
  unfold U32_MOD at h
  unfold ST2MS u32sub u32add u32mul CH_CFG_ST_FREQUENCY U32_MOD
  omega

/-- Witness for C10 at `n = 7`. -/
theorem ST2MS_exact_witness : 7 * 1000 < U32_MOD ∧ ST2MS 7 = 70 :=
  ⟨by decide, ST2MS_exact 7 (by decide)⟩

/-- C6: `thread_t` is a fixed 64-byte descriptor: `sizeof(thread_t) = 64`. -/
theorem thread_t_is_64_bytes : sizeof_thread_t = 64 := by decide

/-- C8: `tprio_t`, `msg_t` and `systime_t` are aliases of `uint32_t`; their
values range over `0 .. 2^32 - 1` and addition and multiplication wrap
modulo 2^32. -/
theorem u32_semantic_aliases :
    U32_MOD = 2 ^ 32 ∧
    (tprio_t = uint32_t ∧ msg_t = uint32_t ∧ systime_t = uint32_t) ∧
    (∀ x : systime_t, x.val < 2 ^ 32) ∧
    (∀ x y : systime_t, (x + y).val = (x.val + y.val) % 2 ^ 32) ∧
    (∀ x y : systime_t, (x * y).val = (x.val * y.val) % 2 ^ 32) := by
  have hm : U32_MOD = 2 ^ 32 := by decide
  refine ⟨hm, ⟨rfl, rfl, rfl⟩, ?_, ?_, ?_⟩
  · intro x
    exact hm ▸ x.isLt
  · intro x y
    have h1 : (x + y).val = (x.val + y.val) % U32_MOD := Fin.val_add x y
    exact h1.trans rfl
  · intro x y
    have h1 : (x * y).val = (x.val * y.val) % U32_MOD := Fin.val_mul x y
    exact h1.trans rfl

/-- Fired ids followed by remaining ids reconstruct the queue's ids. -/
theorem fireExpired_ids (q : VTQueue) :
    (fireExpired q).1 ++ ids (fireExpired q).2 = ids q := by
  induction q with
  | nil => rfl
  | cons hd tl ih =>
    obtain ⟨d, i⟩ := hd
    simp only [fireExpired]
    split
    · simpa [ids] using ih
    · rfl

/-- The firing pass preserves the measure `fired + deltas + length`. -/
theorem fireExpired_measure (q : VTQueue) :
    (fireExpired q).1.length + (sumDeltas (fireExpired q).2 +
      (fireExpired q).2.length) = sumDeltas q + q.length := by
  induction q with
  | nil => rfl
  | cons hd tl ih =>
    obtain ⟨d, i⟩ := hd
    simp only [fireExpired]
    split
    · next h0 =>
      subst h0
      simp only [List.length_cons, sumDeltas, List.map_cons, List.sum_cons]
      simp only [sumDeltas] at ih
      omega
    · simp [sumDeltas]

/-- A zero-delta head always fires. -/
theorem fireExpired_zero_head (i : Nat) (rest : VTQueue) :
    (fireExpired ((0, i) :: rest)).1 = i :: (fireExpired rest).1 := by
  simp [fireExpired]

/-- Past a zero-delta head, the remaining queue is that of the tail. -/
theorem fireExpired_zero_head_snd (i : Nat) (rest : VTQueue) :
    (fireExpired ((0, i) :: rest)).2 = (fireExpired rest).2 := by
  simp [fireExpired]

/-- After enough ticks (the queue's total delta plus its length), every
timer has fired, in queue order. -/
theorem runTicks_complete (n : Nat) :
    ∀ q : VTQueue, sumDeltas q + q.length ≤ n → runTicks n q = ids q := by
  induction n with
  | zero =>
    intro q h
    cases q with
    | nil => rfl
    | cons hd tl => simp [sumDeltas] at h
  | succ n ih =>
    intro q h
    cases q with
    | nil =>
      simp only [runTicks, tickAdvance, List.nil_append]
      exact ih [] (by simp [sumDeltas])
    | cons hd tl =>
      obtain ⟨d, i⟩ := hd
      have hm := fireExpired_measure ((d - 1, i) :: tl)
      have hids := fireExpired_ids ((d - 1, i) :: tl)
      have hn : sumDeltas (fireExpired ((d - 1, i) :: tl)).2 +
          (fireExpired ((d - 1, i) :: tl)).2.length ≤ n := by
        rcases Nat.eq_zero_or_pos d with h0 | h0
        · subst h0
          have hz : (0 : Nat) - 1 = 0 := rfl
          rw [hz, fireExpired_zero_head_snd]
          have hm2 := fireExpired_measure tl
          simp only [sumDeltas, List.map_cons, List.sum_cons,
            List.length_cons] at h hm2 ⊢
          omega
        · simp only [sumDeltas, List.map_cons, List.sum_cons,
            List.length_cons] at hm h ⊢
          omega
      calc runTicks (n + 1) ((d, i) :: tl)
          = (fireExpired ((d - 1, i) :: tl)).1 ++
              runTicks n (fireExpired ((d - 1, i) :: tl)).2 := by
            simp [runTicks, tickAdvance]
        _ = (fireExpired ((d - 1, i) :: tl)).1 ++
              ids (fireExpired ((d - 1, i) :: tl)).2 := by rw [ih _ hn]
        _ = ids ((d - 1, i) :: tl) := hids
        _ = ids ((d, i) :: tl) := by simp [ids]

/-- An inserted timer's id is in the queue after insertion. -/
theorem mem_ids_setTimerInsert (delay B : Nat) (q : VTQueue) :
    B ∈ ids (setTimerInsert delay B q) := by
  induction q generalizing delay with
  | nil => simp [setTimerInsert, ids]
  | cons hd tl ih =>
    obtain ⟨d, i⟩ := hd
    simp only [setTimerInsert]
    split
    · simp [ids]
    · simp only [ids, List.map_cons, List.mem_cons]
      exact Or.inr (ih _)

/-- Inserting A and then B with the same delay leaves A before B in the
queue: the walk places an equal-deadline newcomer after the incumbent. -/
theorem insert_insert_sublist (A B : Nat) (q : VTQueue) :
    ∀ delay : Nat,
      List.Sublist [A, B] (ids (setTimerInsert delay B (setTimerInsert delay A q))) := by
  induction q with
  | nil =>
    intro delay
    simp only [setTimerInsert, setTimerInsert, Nat.lt_irrefl, if_false]
    simp only [ids, List.map_cons, List.map_nil]
    exact List.Sublist.refl _
  | cons hd tl ih =>
    intro delay
    obtain ⟨d, i⟩ := hd
    by_cases hlt : delay < d
    · have h1 : setTimerInsert delay A ((d, i) :: tl)
          = (delay, A) :: (d - delay, i) :: tl := by
        simp [setTimerInsert, hlt]
      rw [h1]
      have h2 : setTimerInsert delay B ((delay, A) :: (d - delay, i) :: tl)
          = (delay, A) :: setTimerInsert (delay - delay) B ((d - delay, i) :: tl) := by
        simp [setTimerInsert]
      rw [h2]
      simp only [ids, List.map_cons]
      apply List.Sublist.cons₂
      rw [List.singleton_sublist]
      exact mem_ids_setTimerInsert _ _ _
    · have h1 : setTimerInsert delay A ((d, i) :: tl)
          = (d, i) :: setTimerInsert (delay - d) A tl := by
        simp [setTimerInsert, hlt]
      rw [h1]
      have h2 : setTimerInsert delay B ((d, i) :: setTimerInsert (delay - d) A tl)
          = (d, i) :: setTimerInsert (delay - d) B (setTimerInsert (delay - d) A tl) := by
        simp [setTimerInsert, hlt]
      rw [h2]
      simp only [ids, List.map_cons]
      exact List.Sublist.cons _ (ih _)

/-- C5: two timers armed with equal deadlines, A inserted before B, fire in
FIFO order: after enough tick advances A's callback occurs before B's in
the fired sequence. -/
theorem setTimer_equal_deadline_fifo (q : VTQueue) (delay A B n : Nat)
    (h : sumDeltas (setTimerInsert delay B (setTimerInsert delay A q)) +
         (setTimerInsert delay B (setTimerInsert delay A q)).length ≤ n) :
    List.Sublist [A, B]
      (runTicks n (setTimerInsert delay B (setTimerInsert delay A q))) := by
  rw [runTicks_complete n _ h]
  exact insert_insert_sublist A B q delay

/-- Witness for C5: an empty queue, both timers armed for 2 ticks, run for
4 ticks — timer 0 fires before timer 1. -/
theorem setTimer_equal_deadline_fifo_witness :
    sumDeltas (setTimerInsert 2 1 (setTimerInsert 2 0 [])) +
      (setTimerInsert 2 1 (setTimerInsert 2 0 [])).length ≤ 4 ∧
    List.Sublist [0, 1] (runTicks 4 (setTimerInsert 2 1 (setTimerInsert 2 0 []))) :=
  ⟨by decide, setTimer_equal_deadline_fifo [] 2 0 1 4 (by decide)⟩
